import Mathlib

/-!
Verification of the cliptools core: a shallow embedding of the
content-type codec, the paste/list/copy operations of `src/bin/main.rs`,
and the error-to-exit-code mapping, together with theorems settling the
specification claims.

Conventions of the embedding:
- Rust byte sequences (`Vec<u8>`, `&[u8]`) are `List Nat` with every
  element below 256 where it matters.
- The external clipboard library (`arboard::Clipboard`) is a record of
  pure collaborator functions; a failing collaborator call is `none`
  (the code maps every such failure to a fixed `CliptoolsError`, so the
  error payload of the collaborator is irrelevant).
- Writing to standard output is modelled by returning the written bytes
  alongside the result; an operation that returns an error before any
  write returns an empty output.
-/

set_option autoImplicit false

namespace Cliptools

/-- The `arboard::ContentType` enum: six well-known variants plus a
platform-native `Custom` type carrying a string. -/
inductive ContentType where
  | url
  | html
  | pdf
  | png
  | rtf
  | text
  | custom (s : String)
deriving DecidableEq, Repr

/-- Rust `u8::to_ascii_lowercase` / `char::to_ascii_lowercase` on one
character: ASCII capital letters are shifted down by 32, everything else
is unchanged. -/
def charToAsciiLower (c : Char) : Char :=
  if 65 ≤ c.toNat ∧ c.toNat ≤ 90 then Char.ofNat (c.toNat + 32) else c

/-- Rust `str::to_ascii_lowercase`: apply the ASCII lowering to every
character. -/
def toAsciiLower (s : String) : String :=
  ⟨s.data.map charToAsciiLower⟩

/-- The function `string_to_ct` of `src/bin/main.rs` (lines 193-209): match
the ASCII-lowercased name against the six well-known names; otherwise, if
the original name starts with an at sign, the remainder (case preserved)
becomes `Custom`; otherwise the name is not recognized.
`s.data.head? = some (Char.ofNat 64)` renders Rust `s.starts_with` on the
at sign and `s.data.tail` renders `s.chars().skip(1).collect()`. -/
def string_to_ct (s : String) : Option ContentType :=
  if toAsciiLower s = "url" then some ContentType.url
  else if toAsciiLower s = "html" then some ContentType.html
  else if toAsciiLower s = "pdf" then some ContentType.pdf
  else if toAsciiLower s = "png" then some ContentType.png
  else if toAsciiLower s = "rtf" then some ContentType.rtf
  else if toAsciiLower s = "text" then some ContentType.text
  else if s.data.head? = some '@' then some (ContentType.custom ⟨s.data.tail⟩)
  else none

/-- The function `show_ct` of `src/bin/main.rs` (lines 219-229): well-known
variants render to their lowercase name, `Custom s` renders as the at sign
followed by `s`. -/
def show_ct : ContentType → String
  | ContentType.text => "text"
  | ContentType.html => "html"
  | ContentType.pdf => "pdf"
  | ContentType.png => "png"
  | ContentType.rtf => "rtf"
  | ContentType.url => "url"
  | ContentType.custom s => "@" ++ s

/-- The error enum `CliptoolsError` of `src/bin/main.rs` (lines 231-243). -/
inductive CliptoolsError where
  | dataNotFound
  | argumentError (msg : String)
  | utf8Error
  | jsonError (msg : String)
  | internalError
deriving DecidableEq, Repr

/-- `CliptoolsError::exit_code` (lines 245-258): 1 for missing data or
clipboard errors, 2 for user errors. -/
def CliptoolsError.exit_code : CliptoolsError → Int
  | CliptoolsError.dataNotFound => 1
  | CliptoolsError.internalError => 1
  | CliptoolsError.argumentError _ => 2
  | CliptoolsError.jsonError _ => 2
  | CliptoolsError.utf8Error => 2

/-- Process exit behaviour of `main` (lines 85-90): on success `main`
returns and the process exits with 0; on error it exits with the error
exit code. -/
def mainExitCode : Except CliptoolsError Unit → Int
  | Except.ok _ => 0
  | Except.error e => e.exit_code

/-- One byte of a UTF-8 continuation: `0x80` to `0xBF`. -/
def isUtf8Cont (b : Nat) : Bool := 128 ≤ b && b ≤ 191

/-- The UTF-8 well-formedness check performed by Rust
`std::str::from_utf8` (used at `src/bin/main.rs` line 213), written as a
byte-level acceptor of the standard UTF-8 table: 1-byte `00..7F`; 2-byte
`C2..DF` + cont; 3-byte `E0 A0..BF` + cont, `E1..EC`/`EE`/`EF` + 2 cont,
`ED 80..9F` + cont (no surrogates); 4-byte `F0 90..BF` + 2 cont,
`F1..F3` + 3 cont, `F4 80..8F` + 2 cont (up to `U+10FFFF`). -/
def validUtf8 : List Nat → Bool
  | [] => true
  | b0 :: rest =>
    if b0 ≤ 127 then validUtf8 rest
    else if 194 ≤ b0 && b0 ≤ 223 then
      match rest with
      | b1 :: rest2 => isUtf8Cont b1 && validUtf8 rest2
      | [] => false
    else if b0 = 224 then
      match rest with
      | b1 :: b2 :: rest3 => (160 ≤ b1 && b1 ≤ 191) && isUtf8Cont b2 && validUtf8 rest3
      | _ => false
    else if (225 ≤ b0 && b0 ≤ 236) || b0 = 238 || b0 = 239 then
      match rest with
      | b1 :: b2 :: rest3 => isUtf8Cont b1 && isUtf8Cont b2 && validUtf8 rest3
      | _ => false
    else if b0 = 237 then
      match rest with
      | b1 :: b2 :: rest3 => (128 ≤ b1 && b1 ≤ 159) && isUtf8Cont b2 && validUtf8 rest3
      | _ => false
    else if b0 = 240 then
      match rest with
      | b1 :: b2 :: b3 :: rest4 =>
        (144 ≤ b1 && b1 ≤ 191) && isUtf8Cont b2 && isUtf8Cont b3 && validUtf8 rest4
      | _ => false
    else if 241 ≤ b0 && b0 ≤ 243 then
      match rest with
      | b1 :: b2 :: b3 :: rest4 =>
        isUtf8Cont b1 && isUtf8Cont b2 && isUtf8Cont b3 && validUtf8 rest4
      | _ => false
    else if b0 = 244 then
      match rest with
      | b1 :: b2 :: b3 :: rest4 =>
        (128 ≤ b1 && b1 ≤ 143) && isUtf8Cont b2 && isUtf8Cont b3 && validUtf8 rest4
      | _ => false
    else false

/-- Standard UTF-8 encoding of one scalar value, as a list of bytes. -/
def utf8EncodeChar (c : Char) : List Nat :=
  let v := c.toNat
  if v < 128 then [v]
  else if v < 2048 then [192 + v / 64, 128 + v % 64]
  else if v < 65536 then [224 + v / 4096, 128 + (v / 64) % 64, 128 + v % 64]
  else [240 + v / 262144, 128 + (v / 4096) % 64, 128 + (v / 64) % 64, 128 + v % 64]

/-- The UTF-8 bytes of a string: what Rust writes for `print!` of a `&str`
and collects by `str::bytes`. -/
def strBytes (s : String) : List Nat :=
  (s.data.map utf8EncodeChar).flatten

/-- A clipboard payload: the `HashMap<ContentType, Vec<u8>>` handed to
`set_content_types`, modelled as an association list with unique keys. -/
abbrev Payload := List (ContentType × List Nat)

/-- The external clipboard collaborator (`arboard::Clipboard`), as a
record of pure functions. A failing collaborator call is `none` (or
`false` for `set_content_types`); the code maps each failure to one fixed
`CliptoolsError` without inspecting it. -/
structure Board where
  get_content_for_type : ContentType → Option (List Nat)
  get_text : Option String
  get_content_types : Option (List String)
  normalize_content_type : String → ContentType
  set_content_types : Payload → Bool

/-- The value of the `--binary` flag of the paste subcommand. `clap`
restricts an explicit value to auto, always or never (`possible_values`,
`src/bin/main.rs` line 47), so the panicking catch-all arm of the Rust
match is unreachable and has no counterpart here. -/
inductive BinaryOpt where
  | noneGiven
  | auto
  | always
  | never
deriving DecidableEq, Repr

/-- Resolution of the `--binary` flag into `binary_allowed`
(`src/bin/main.rs` lines 94-101): auto allows binary exactly when
standard output is not a terminal; an absent flag and always both allow
it; never forbids it. -/
def resolveBinary (b : BinaryOpt) (stdoutIsTty : Bool) : Bool :=
  match b with
  | BinaryOpt.auto => !stdoutIsTty
  | BinaryOpt.noneGiven => true
  | BinaryOpt.always => true
  | BinaryOpt.never => false

/-- Arguments of the paste subcommand. `clap` makes `--type` and
`--system-type` mutually exclusive (an `ArgGroup`), but the embedding
keeps both fields; the code consults `systemType` only when `type` is
absent. -/
structure PasteArgs where
  type : Option String
  systemType : Option String
  binary : BinaryOpt

/-- The function `show_binary_content` (`src/bin/main.rs` lines 211-217):
when binary output is not allowed, the bytes must pass UTF-8 validation
before anything is written; then the raw bytes are written to standard
output. The second component is the bytes written to standard output:
empty when the function fails, the clipboard bytes unchanged and with no
trailing newline when it succeeds. -/
def show_binary_content (val : List Nat) (binary_allowed : Bool) :
    Except CliptoolsError Unit × List Nat :=
  if !binary_allowed then
    if validUtf8 val then (Except.ok (), val)
    else (Except.error CliptoolsError.utf8Error, [])
  else (Except.ok (), val)

/-- Content-type resolution of the paste subcommand (`src/bin/main.rs`
lines 103-113): an explicit `--type` goes through `string_to_ct` and an
unrecognized name is an `ArgumentError`; otherwise an explicit
`--system-type` becomes `Custom` verbatim; otherwise no type is
requested. -/
def pasteCt (args : PasteArgs) : Except CliptoolsError (Option ContentType) :=
  match args.type with
  | some t =>
    match string_to_ct t with
    | some ct => Except.ok (some ct)
    | none => Except.error (CliptoolsError.argumentError
        ("unknown type: " ++ t ++ "; try using --system-type to specify a system native type"))
  | none => Except.ok (args.systemType.map ContentType.custom)

/-- The function `paste` (`src/bin/main.rs` lines 93-127). The second
component of the result is the bytes written to standard output. With a
requested type, the collaborator read failing is a `DataNotFound` and the
bytes go through `show_binary_content`; with no requested type, the
collaborator text is printed as-is (`print!`, no trailing newline). -/
def paste (board : Board) (stdoutIsTty : Bool) (args : PasteArgs) :
    Except CliptoolsError Unit × List Nat :=
  let binary_allowed := resolveBinary args.binary stdoutIsTty
  match pasteCt args with
  | Except.error e => (Except.error e, [])
  | Except.ok (some ct) =>
    match board.get_content_for_type ct with
    | none => (Except.error CliptoolsError.dataNotFound, [])
    | some val => show_binary_content val binary_allowed
  | Except.ok none =>
    match board.get_text with
    | none => (Except.error CliptoolsError.dataNotFound, [])
    | some val => (Except.ok (), strBytes val)

/-- Consecutive deduplication, Rust `Vec::dedup` (`src/bin/main.rs`
line 144): removes an element equal to its predecessor. -/
def dedupAdjacent : List String → List String
  | [] => []
  | a :: rest =>
    match rest with
    | [] => [a]
    | b :: _ => if a = b then dedupAdjacent rest else a :: dedupAdjacent rest

/-- Lexicographic string sort, Rust `Vec::sort` (`src/bin/main.rs`
line 143). Any comparison sort yields the same sorted list up to the
order of equal elements, which for strings are identical, so insertion
sort represents the Rust merge sort faithfully. -/
def sortStrings (l : List String) : List String :=
  List.insertionSort (fun a b : String => a ≤ b) l

/-- The function `list` (`src/bin/main.rs` lines 129-150): enumeration
failure is a `DataNotFound`; with `--system` the native types are printed
verbatim in order; otherwise each native type is normalized by the
collaborator, rendered by `show_ct`, and the results are sorted and
deduplicated. The result on success is the list of printed lines. -/
def list_types (board : Board) (system : Bool) : Except CliptoolsError (List String) :=
  match board.get_content_types with
  | none => Except.error CliptoolsError.dataNotFound
  | some types =>
    if system then Except.ok types
    else
      Except.ok (dedupAdjacent (sortStrings
        (types.map (fun s => show_ct (board.normalize_content_type s)))))

/-- JSON values as parsed by `serde_json`. Numbers are simplified to
integers; the code never reads a numeric value, it only observes through
`as_str` whether a value is a string. -/
inductive Json where
  | null
  | bool (b : Bool)
  | num (n : Int)
  | str (s : String)
  | arr (elems : List Json)
  | obj (entries : List (String × Json))

/-- Arguments of the copy subcommand; `--type`, `--system-type` and
`--json` are mutually exclusive (an `ArgGroup`). -/
structure CopyArgs where
  json : Bool
  type : Option String
  systemType : Option String

/-- `HashMap` insertion: replace the value when the key is present,
append the new entry otherwise. -/
def insertPayload (m : Payload) (k : ContentType) (v : List Nat) : Payload :=
  match m with
  | [] => [(k, v)]
  | (k2, v2) :: rest => if k2 = k then (k, v) :: rest else (k2, v2) :: insertPayload rest k v

/-- The JSON-mode payload construction of `copy` (`src/bin/main.rs`
lines 159-169): for each object entry in iteration order, resolve the key
through `string_to_ct` (unrecognized key: `ArgumentError`), require the
value to be a string (`JsonError` otherwise), and collect the pairs into
the `HashMap`; the first failing entry aborts. -/
def buildJsonPayload : List (String × Json) → Payload → Except CliptoolsError Payload
  | [], acc => Except.ok acc
  | (typ, content) :: rest, acc =>
    match string_to_ct typ with
    | none => Except.error (CliptoolsError.argumentError ("unknown type: " ++ typ))
    | some ct =>
      match content with
      | Json.str v => buildJsonPayload rest (insertPayload acc ct (strBytes v))
      | _ => Except.error (CliptoolsError.jsonError ("expected a string under key " ++ typ))

/-- Single-type-mode content type resolution of `copy` (`src/bin/main.rs`
lines 171-182): explicit `--type` through `string_to_ct` (unrecognized:
`ArgumentError`), else explicit `--system-type` as `Custom` verbatim,
else `Text`. -/
def copySingleCt (args : CopyArgs) : Except CliptoolsError ContentType :=
  match args.type with
  | some t =>
    match string_to_ct t with
    | some ct => Except.ok ct
    | none => Except.error (CliptoolsError.argumentError
        ("unknown type: " ++ t ++ "; try using --system-type to specify a system native type"))
  | none =>
    match args.systemType with
    | some t => Except.ok (ContentType.custom t)
    | none => Except.ok ContentType.text

/-- The payload construction of `copy` (`src/bin/main.rs` lines 153-186).
`stdinJson` is the result of `serde_json::from_reader` on standard input
(`none`: unreadable, a `JsonError`); `stdinBytes` is the result of
`read_to_end` (`none`: read failure, an `InternalError`). In JSON mode
the top level must be an object; in single-type mode the payload is the
single entry of the resolved type and the raw input bytes. -/
def copyPayload (args : CopyArgs) (stdinJson : Option Json)
    (stdinBytes : Option (List Nat)) : Except CliptoolsError Payload :=
  if args.json then
    match stdinJson with
    | none => Except.error (CliptoolsError.jsonError "cannot read JSON input")
    | some (Json.obj entries) => buildJsonPayload entries []
    | some _ => Except.error (CliptoolsError.jsonError "expected a JSON object at top level")
  else
    match copySingleCt args with
    | Except.error e => Except.error e
    | Except.ok ct =>
      match stdinBytes with
      | none => Except.error CliptoolsError.internalError
      | some data => Except.ok [(ct, data)]

/-- The function `copy` (`src/bin/main.rs` lines 152-191): build the
payload, then hand it to the collaborator `set_content_types` in one
call; a rejected write is an `InternalError`. The second component is the
list of payloads passed to `set_content_types`, in order, so that the
number of collaborator write calls is observable. -/
def copy (board : Board) (args : CopyArgs) (stdinJson : Option Json)
    (stdinBytes : Option (List Nat)) : Except CliptoolsError Unit × List Payload :=
  match copyPayload args stdinJson stdinBytes with
  | Except.error e => (Except.error e, [])
  | Except.ok p =>
    if board.set_content_types p then (Except.ok (), [p])
    else (Except.error CliptoolsError.internalError, [p])

/-- The six well-known type names recognized by `string_to_ct`. -/
def wellKnownNames : List String := ["url", "html", "pdf", "png", "rtf", "text"]

theorem toAsciiLower_data (s : String) :
    (toAsciiLower s).data = s.data.map charToAsciiLower := rfl

theorem toAsciiLower_head_at (s : String) (h : s.data.head? = some '@') :
    (toAsciiLower s).data.head? = some '@' := by
  rw [toAsciiLower_data]
  cases hd : s.data with
  | nil => rw [hd] at h; simp at h
  | cons c t =>
    rw [hd] at h
    simp only [List.head?_cons, Option.some.injEq] at h
    subst h
    simp only [List.map_cons, List.head?_cons, Option.some.injEq]
    decide

theorem lower_ne_of_head_at (s : String) (h : s.data.head? = some '@') (w : String)
    (hw : w.data.head? ≠ some '@') : toAsciiLower s ≠ w := by
  intro he
  apply hw
  rw [← he]
  exact toAsciiLower_head_at s h

/-- On a name starting with the at sign, `string_to_ct` yields `Custom` of
the remainder with case preserved. -/
theorem string_to_ct_of_head_at (s : String) (h : s.data.head? = some '@') :
    string_to_ct s = some (ContentType.custom ⟨s.data.tail⟩) := by
  unfold string_to_ct
  rw [if_neg (lower_ne_of_head_at s h "url" (by decide)),
    if_neg (lower_ne_of_head_at s h "html" (by decide)),
    if_neg (lower_ne_of_head_at s h "pdf" (by decide)),
    if_neg (lower_ne_of_head_at s h "png" (by decide)),
    if_neg (lower_ne_of_head_at s h "rtf" (by decide)),
    if_neg (lower_ne_of_head_at s h "text" (by decide)),
    if_pos h]

theorem string_mk_data (s : String) : String.mk s.data = s := by
  cases s
  rfl

theorem data_append_at (u : String) : ("@" ++ u).data = '@' :: u.data := by
  cases u with
  | mk l => rfl

theorem string_to_ct_lower_url (s : String) (h : toAsciiLower s = "url") :
    string_to_ct s = some ContentType.url := by
  unfold string_to_ct; rw [h]; simp

theorem string_to_ct_lower_html (s : String) (h : toAsciiLower s = "html") :
    string_to_ct s = some ContentType.html := by
  unfold string_to_ct; rw [h]; simp

theorem string_to_ct_lower_pdf (s : String) (h : toAsciiLower s = "pdf") :
    string_to_ct s = some ContentType.pdf := by
  unfold string_to_ct; rw [h]; simp

theorem string_to_ct_lower_png (s : String) (h : toAsciiLower s = "png") :
    string_to_ct s = some ContentType.png := by
  unfold string_to_ct; rw [h]; simp

theorem string_to_ct_lower_rtf (s : String) (h : toAsciiLower s = "rtf") :
    string_to_ct s = some ContentType.rtf := by
  unfold string_to_ct; rw [h]; simp

theorem string_to_ct_lower_text (s : String) (h : toAsciiLower s = "text") :
    string_to_ct s = some ContentType.text := by
  unfold string_to_ct; rw [h]; simp

/-- On a name that lowercases to none of the six well-known names and does
not start with the at sign, `string_to_ct` fails. -/
theorem string_to_ct_none (s : String) (hwk : toAsciiLower s ∉ wellKnownNames)
    (hat : s.data.head? ≠ some '@') : string_to_ct s = none := by
  simp only [wellKnownNames, List.mem_cons, List.not_mem_nil, or_false, not_or] at hwk
  obtain ⟨h1, h2, h3, h4, h5, h6⟩ := hwk
  unfold string_to_ct
  rw [if_neg h1, if_neg h2, if_neg h3, if_neg h4, if_neg h5, if_neg h6, if_neg hat]

/-- C3: `string_to_ct` resolves a name by first matching it
case-insensitively against the six well-known names; otherwise a name
starting with the at sign yields `Custom` of the remainder with case
preserved; otherwise it fails (yields `none`, which every caller converts
into an `ArgumentError`); in particular it fails on "bogus" and on the
empty string. -/
theorem string_to_ct_resolution (s : String) :
    (toAsciiLower s = "url" → string_to_ct s = some ContentType.url) ∧
    (toAsciiLower s = "html" → string_to_ct s = some ContentType.html) ∧
    (toAsciiLower s = "pdf" → string_to_ct s = some ContentType.pdf) ∧
    (toAsciiLower s = "png" → string_to_ct s = some ContentType.png) ∧
    (toAsciiLower s = "rtf" → string_to_ct s = some ContentType.rtf) ∧
    (toAsciiLower s = "text" → string_to_ct s = some ContentType.text) ∧
    (s.data.head? = some '@' → string_to_ct s = some (ContentType.custom ⟨s.data.tail⟩)) ∧
    (toAsciiLower s ∉ wellKnownNames → s.data.head? ≠ some '@' → string_to_ct s = none) ∧
    string_to_ct "bogus" = none ∧ string_to_ct "" = none :=
  ⟨string_to_ct_lower_url s, string_to_ct_lower_html s, string_to_ct_lower_pdf s,
    string_to_ct_lower_png s, string_to_ct_lower_rtf s, string_to_ct_lower_text s,
    string_to_ct_of_head_at s, string_to_ct_none s, by decide, by decide⟩

/-- Witness for C3 at concrete inputs. -/
theorem string_to_ct_resolution_witness :
    string_to_ct "PNG" = some ContentType.png ∧
    string_to_ct "@Foo" = some (ContentType.custom "Foo") ∧
    string_to_ct "zzz" = none := by
  refine ⟨(string_to_ct_resolution "PNG").2.2.2.1 (by decide), ?_,
    (string_to_ct_resolution "zzz").2.2.2.2.2.2.2.1 (by decide) (by decide)⟩
  have h := (string_to_ct_resolution "@Foo").2.2.2.2.2.2.1 (by decide)
  simpa using h

theorem string_data_ext (a b : String) (h : a.data = b.data) : a = b := by
  cases a; cases b; cases h; rfl

theorem roundtrip_custom (u : String) :
    string_to_ct ("@" ++ u) = some (ContentType.custom u) := by
  have hd : ("@" ++ u).data.head? = some '@' := by rw [data_append_at]; rfl
  rw [string_to_ct_of_head_at ("@" ++ u) hd, data_append_at]
  simp [string_mk_data]

theorem parse_render (ct : ContentType) : string_to_ct (show_ct ct) = some ct := by
  cases ct with
  | custom u => exact roundtrip_custom u
  | url => decide
  | html => decide
  | pdf => decide
  | png => decide
  | rtf => decide
  | text => decide

theorem render_parse_wellknown (s : String) (h : toAsciiLower s ∈ wellKnownNames) :
    Option.map show_ct (string_to_ct s) = some (toAsciiLower s) := by
  simp only [wellKnownNames, List.mem_cons, List.not_mem_nil, or_false] at h
  rcases h with h | h | h | h | h | h
  · rw [string_to_ct_lower_url s h, h]; rfl
  · rw [string_to_ct_lower_html s h, h]; rfl
  · rw [string_to_ct_lower_pdf s h, h]; rfl
  · rw [string_to_ct_lower_png s h, h]; rfl
  · rw [string_to_ct_lower_rtf s h, h]; rfl
  · rw [string_to_ct_lower_text s h, h]; rfl

theorem render_parse_at (s : String) (h : s.data.head? = some '@') :
    Option.map show_ct (string_to_ct s) = some s := by
  rw [string_to_ct_of_head_at s h]
  show (some ("@" ++ (⟨s.data.tail⟩ : String)) : Option String) = some s
  refine congrArg some (string_data_ext _ _ ?_)
  rw [data_append_at]
  cases hd : s.data with
  | nil => rw [hd] at h; simp at h
  | cons c t =>
    rw [hd] at h
    simp only [List.head?_cons, Option.some.injEq] at h
    subst h
    rfl

/-- C2: parse after render is the identity on every `ContentType`,
including `Custom s` for every string `s`; and for every string accepted
by parse, render after parse yields the ASCII-lowercasing of the string
when it names a well-known type, and the string itself, verbatim, when it
starts with the at sign. -/
theorem typecodec_roundtrip (ct : ContentType) (s : String) :
    string_to_ct (show_ct ct) = some ct ∧
    (toAsciiLower s ∈ wellKnownNames →
      Option.map show_ct (string_to_ct s) = some (toAsciiLower s)) ∧
    (s.data.head? = some '@' → Option.map show_ct (string_to_ct s) = some s) :=
  ⟨parse_render ct, render_parse_wellknown s, render_parse_at s⟩

/-- Witness for C2 at concrete inputs. -/
theorem typecodec_roundtrip_witness :
    string_to_ct (show_ct (ContentType.custom "Foo")) = some (ContentType.custom "Foo") ∧
    Option.map show_ct (string_to_ct "URL") = some (toAsciiLower "URL") ∧
    Option.map show_ct (string_to_ct "@bar") = some "@bar" :=
  ⟨(typecodec_roundtrip (ContentType.custom "Foo") "URL").1,
    (typecodec_roundtrip (ContentType.custom "Foo") "URL").2.1 (by decide),
    (typecodec_roundtrip (ContentType.custom "Foo") "@bar").2.2 (by decide)⟩

theorem show_binary_content_allowed (val : List Nat) :
    show_binary_content val true = (Except.ok (), val) := rfl

theorem show_binary_content_forbidden_invalid (val : List Nat) (h : validUtf8 val = false) :
    show_binary_content val false = (Except.error CliptoolsError.utf8Error, []) := by
  simp [show_binary_content, h]

theorem paste_with_type (board : Board) (tty : Bool) (b : BinaryOpt) (t : String)
    (ct : ContentType) (val : List Nat) (hct : string_to_ct t = some ct)
    (hval : board.get_content_for_type ct = some val) :
    paste board tty ⟨some t, none, b⟩ = show_binary_content val (resolveBinary b tty) := by
  unfold paste pasteCt
  simp only [hct, hval]

theorem paste_with_system_type (board : Board) (tty : Bool) (b : BinaryOpt) (t : String)
    (val : List Nat) (hval : board.get_content_for_type (ContentType.custom t) = some val) :
    paste board tty ⟨none, some t, b⟩ = show_binary_content val (resolveBinary b tty) := by
  unfold paste pasteCt
  simp only [Option.map_some', hval]

/-- C1: for a paste request with an explicit `--type` or `--system-type`,
the binary flag resolves per policy (auto: allowed exactly when standard
output is not a terminal; always: allowed; never: forbidden); when binary
output is not allowed and the clipboard bytes are not valid UTF-8, paste
fails with `Utf8Error`; when binary output is allowed, paste succeeds and
writes exactly the clipboard bytes to standard output, with no trailing
newline. -/
theorem paste_binary_policy (board : Board) (tty : Bool) (b : BinaryOpt)
    (t : String) (ct : ContentType) (val : List Nat) :
    (resolveBinary BinaryOpt.auto tty = !tty ∧
      resolveBinary BinaryOpt.always tty = true ∧
      resolveBinary BinaryOpt.never tty = false) ∧
    (string_to_ct t = some ct → board.get_content_for_type ct = some val →
      (resolveBinary b tty = false → validUtf8 val = false →
        paste board tty ⟨some t, none, b⟩ = (Except.error CliptoolsError.utf8Error, [])) ∧
      (resolveBinary b tty = true →
        paste board tty ⟨some t, none, b⟩ = (Except.ok (), val))) ∧
    (board.get_content_for_type (ContentType.custom t) = some val →
      (resolveBinary b tty = false → validUtf8 val = false →
        paste board tty ⟨none, some t, b⟩ = (Except.error CliptoolsError.utf8Error, [])) ∧
      (resolveBinary b tty = true →
        paste board tty ⟨none, some t, b⟩ = (Except.ok (), val))) := by
  refine ⟨⟨rfl, rfl, rfl⟩, fun hct hval => ⟨fun hb hu => ?_, fun hb => ?_⟩,
    fun hval => ⟨fun hb hu => ?_, fun hb => ?_⟩⟩
  · rw [paste_with_type board tty b t ct val hct hval, hb,
      show_binary_content_forbidden_invalid val hu]
  · rw [paste_with_type board tty b t ct val hct hval, hb, show_binary_content_allowed]
  · rw [paste_with_system_type board tty b t val hval, hb,
      show_binary_content_forbidden_invalid val hu]
  · rw [paste_with_system_type board tty b t val hval, hb, show_binary_content_allowed]

/-- Witness for C1: non-UTF-8 clipboard bytes under a custom type, on a
terminal; `--binary never` fails with `Utf8Error`, `--binary always`
emits the raw bytes. -/
theorem paste_binary_policy_witness :
    paste ⟨fun ct => if ct = ContentType.custom "x" then some [255] else none,
        none, none, fun _ => ContentType.text, fun _ => false⟩ true
      ⟨none, some "x", BinaryOpt.never⟩ = (Except.error CliptoolsError.utf8Error, []) ∧
    paste ⟨fun ct => if ct = ContentType.custom "x" then some [255] else none,
        none, none, fun _ => ContentType.text, fun _ => false⟩ true
      ⟨none, some "x", BinaryOpt.always⟩ = (Except.ok (), [255]) :=
  ⟨((paste_binary_policy _ true BinaryOpt.never "x" ContentType.text [255]).2.2
      (by simp)).1 rfl (by decide),
    ((paste_binary_policy _ true BinaryOpt.always "x" ContentType.text [255]).2.2
      (by simp)).2 rfl⟩

/-- C9: a paste invocation without a `--binary` flag resolves
`binary_allowed` to true unconditionally, identically to
`--binary always` and independently of whether standard output is a
terminal, so pasting arbitrary (possibly non-UTF-8) bytes under an
explicit type or system type succeeds and emits the raw bytes. -/
theorem paste_default_binary (board : Board) (tty : Bool) (t : String)
    (ct : ContentType) (val : List Nat) :
    resolveBinary BinaryOpt.noneGiven tty = true ∧
    resolveBinary BinaryOpt.noneGiven tty = resolveBinary BinaryOpt.always tty ∧
    (string_to_ct t = some ct → board.get_content_for_type ct = some val →
      paste board tty ⟨some t, none, BinaryOpt.noneGiven⟩ = (Except.ok (), val)) ∧
    (board.get_content_for_type (ContentType.custom t) = some val →
      paste board tty ⟨none, some t, BinaryOpt.noneGiven⟩ = (Except.ok (), val)) := by
  refine ⟨rfl, rfl, fun hct hval => ?_, fun hval => ?_⟩
  · rw [paste_with_type board tty BinaryOpt.noneGiven t ct val hct hval]
    rfl
  · rw [paste_with_system_type board tty BinaryOpt.noneGiven t val hval]
    rfl

/-- Witness for C9: non-UTF-8 bytes are pasted raw on a terminal when no
`--binary` flag is given. -/
theorem paste_default_binary_witness :
    paste ⟨fun ct => if ct = ContentType.custom "x" then some [255] else none,
        none, none, fun _ => ContentType.text, fun _ => false⟩ true
      ⟨none, some "x", BinaryOpt.noneGiven⟩ = (Except.ok (), [255]) :=
  (paste_default_binary _ true "x" ContentType.text [255]).2.2.2 rfl

/-- The second component of `show_binary_content` is empty whenever the
first is an error: the UTF-8 validation strictly precedes the write. -/
theorem show_binary_content_error_no_output (val : List Nat) (ba : Bool)
    (h : (show_binary_content val ba).1 = Except.error CliptoolsError.utf8Error) :
    (show_binary_content val ba).2 = [] := by
  cases ba with
  | true => exact absurd h (by simp [show_binary_content])
  | false =>
    cases hv : validUtf8 val with
    | true => simp [show_binary_content, hv] at h
    | false => simp [show_binary_content, hv]

/-- C10: a paste that fails with `Utf8Error` has written nothing to
standard output: the validation precedes the write, so the error leaves
standard output untouched. -/
theorem paste_utf8_error_no_output (board : Board) (tty : Bool) (args : PasteArgs)
    (h : (paste board tty args).1 = Except.error CliptoolsError.utf8Error) :
    (paste board tty args).2 = [] := by
  unfold paste at h ⊢
  cases hc : pasteCt args with
  | error e => simp only [hc] at h ⊢
  | ok oct =>
    cases oct with
    | none =>
      simp only [hc] at h ⊢
      cases ht : board.get_text with
      | none => simp only [ht]
      | some v =>
        simp only [ht] at h
        exact Except.noConfusion h
    | some ct =>
      simp only [hc] at h ⊢
      cases hg : board.get_content_for_type ct with
      | none => simp only [hg]
      | some val =>
        simp only [hg] at h ⊢
        exact show_binary_content_error_no_output val _ h

/-- Witness for C10 at a concrete failing paste. -/
theorem paste_utf8_error_no_output_witness :
    (paste ⟨fun _ => some [255], none, none, fun _ => ContentType.text, fun _ => false⟩
      true ⟨none, some "x", BinaryOpt.never⟩).2 = [] :=
  paste_utf8_error_no_output _ true ⟨none, some "x", BinaryOpt.never⟩ rfl

/-- C8: the process exits with 0 on success, with 1 exactly on
`DataNotFound` or `InternalError`, and with 2 exactly on `ArgumentError`,
`JsonError` or `Utf8Error`. -/
theorem exit_code_mapping (r : Except CliptoolsError Unit) :
    (mainExitCode r = 0 ↔ r = Except.ok ()) ∧
    (mainExitCode r = 1 ↔ (r = Except.error CliptoolsError.dataNotFound ∨
      r = Except.error CliptoolsError.internalError)) ∧
    (mainExitCode r = 2 ↔ ((∃ m, r = Except.error (CliptoolsError.argumentError m)) ∨
      (∃ m, r = Except.error (CliptoolsError.jsonError m)) ∨
      r = Except.error CliptoolsError.utf8Error)) := by
  rcases r with e | u
  · cases e <;> simp [mainExitCode, CliptoolsError.exit_code]
  · cases u
    simp [mainExitCode]

theorem dedupAdjacent_nil : dedupAdjacent [] = [] := rfl

theorem dedupAdjacent_singleton (a : String) : dedupAdjacent [a] = [a] := rfl

theorem dedupAdjacent_cons_cons (a b : String) (t : List String) :
    dedupAdjacent (a :: b :: t) =
      if a = b then dedupAdjacent (b :: t) else a :: dedupAdjacent (b :: t) := rfl

theorem mem_dedupAdjacent (l : List String) (x : String) :
    x ∈ dedupAdjacent l ↔ x ∈ l := by
  induction l with
  | nil => simp [dedupAdjacent_nil]
  | cons a rest ih =>
    cases rest with
    | nil => simp [dedupAdjacent_singleton]
    | cons b t =>
      rw [dedupAdjacent_cons_cons]
      by_cases hab : a = b
      · rw [if_pos hab]
        subst hab
        rw [ih]
        simp [List.mem_cons]
      · rw [if_neg hab]
        simp [List.mem_cons, ih]

/-- Consecutive deduplication of a weakly sorted list is strictly
sorted. -/
theorem sorted_lt_dedupAdjacent (l : List String)
    (h : List.Sorted (fun a b : String => a ≤ b) l) :
    List.Sorted (fun a b : String => a < b) (dedupAdjacent l) := by
  induction l with
  | nil => simp [dedupAdjacent_nil]
  | cons a rest ih =>
    cases rest with
    | nil => simp [dedupAdjacent_singleton]
    | cons b t =>
      rw [dedupAdjacent_cons_cons]
      have hbt : List.Sorted (fun a b : String => a ≤ b) (b :: t) := h.of_cons
      have hab : a ≤ b := (List.sorted_cons.mp h).1 b (List.mem_cons_self b t)
      by_cases heq : a = b
      · rw [if_pos heq]
        exact ih hbt
      · rw [if_neg heq]
        rw [List.sorted_cons]
        refine ⟨fun x hx => ?_, ih hbt⟩
        have hx2 : x ∈ b :: t := (mem_dedupAdjacent _ x).mp hx
        have hbx : b ≤ x := by
          rcases List.mem_cons.mp hx2 with hxb | hxt
          · rw [hxb]
          · exact (List.sorted_cons.mp hbt).1 x hxt
        rcases eq_or_lt_of_le (le_trans hab hbx) with heqx | hlt
        · exact absurd (le_antisymm hab (heqx ▸ hbx)) heq
        · exact hlt

/-- C4: with `showNative` false, `list` renders each native type through
the collaborator normalization and `show_ct`, and outputs the results
sorted lexicographically and deduplicated — a string appears in the
output exactly when some native type renders to it, and it appears only
once; enumeration failure is a `DataNotFound`. -/
theorem list_types_normalized (board : Board) :
    (board.get_content_types = none →
      list_types board false = Except.error CliptoolsError.dataNotFound) ∧
    (∀ types, board.get_content_types = some types →
      ∃ out, list_types board false = Except.ok out ∧
        List.Sorted (fun a b : String => a ≤ b) out ∧ out.Nodup ∧
        (∀ x, x ∈ out ↔ ∃ t ∈ types, show_ct (board.normalize_content_type t) = x)) := by
  constructor
  · intro hg
    simp [list_types, hg]
  · intro types hg
    refine ⟨dedupAdjacent (sortStrings
      (types.map (fun s => show_ct (board.normalize_content_type s)))), ?_, ?_, ?_, ?_⟩
    · simp [list_types, hg]
    · have hs := List.sorted_insertionSort (fun a b : String => a ≤ b)
        (types.map (fun s => show_ct (board.normalize_content_type s)))
      exact (sorted_lt_dedupAdjacent _ hs).imp (fun hlt => le_of_lt hlt)
    · have hs := List.sorted_insertionSort (fun a b : String => a ≤ b)
        (types.map (fun s => show_ct (board.normalize_content_type s)))
      exact (sorted_lt_dedupAdjacent _ hs).nodup
    · intro x
      rw [mem_dedupAdjacent]
      rw [show sortStrings (types.map (fun s => show_ct (board.normalize_content_type s)))
        = List.insertionSort (fun a b : String => a ≤ b)
            (types.map (fun s => show_ct (board.normalize_content_type s))) from rfl]
      rw [List.mem_insertionSort]
      simp [List.mem_map]

/-- Witness for C4: two native plain-text flavors both normalizing to
`Text` yield one output line, and a failing enumeration yields
`DataNotFound`. -/
theorem list_types_normalized_witness :
    (list_types ⟨fun _ => none, none, none, fun _ => ContentType.text, fun _ => false⟩
      false = Except.error CliptoolsError.dataNotFound) ∧
    ∃ out, list_types ⟨fun _ => none, none,
        some ["public.utf8-plain-text", "NSStringPboardType"], fun _ => ContentType.text,
        fun _ => false⟩ false = Except.ok out ∧
      List.Sorted (fun a b : String => a ≤ b) out ∧ out.Nodup ∧
      (∀ x, x ∈ out ↔ ∃ t ∈ ["public.utf8-plain-text", "NSStringPboardType"],
        show_ct (ContentType.text) = x) :=
  ⟨(list_types_normalized _).1 rfl,
    (list_types_normalized _).2 ["public.utf8-plain-text", "NSStringPboardType"] rfl⟩

/-- C6: in copy single-type mode the target type is an explicit `--type`
resolved through the codec (`ArgumentError` when unrecognized), else an
explicit `--system-type` verbatim as `Custom`, else the default `Text`;
standard input is read to end as raw bytes (`InternalError` on a read
failure) and the payload is exactly the one entry of that type and those
bytes. -/
theorem copy_single_type (args : CopyArgs) (stdinJson : Option Json)
    (stdinBytes : Option (List Nat)) (data : List Nat) (t : String) (ct : ContentType)
    (hm : args.json = false) :
    (args.type = some t → string_to_ct t = none →
      ∃ m, copyPayload args stdinJson stdinBytes =
        Except.error (CliptoolsError.argumentError m)) ∧
    (args.type = some t → string_to_ct t = some ct → stdinBytes = some data →
      copyPayload args stdinJson stdinBytes = Except.ok [(ct, data)]) ∧
    (args.type = none → args.systemType = some t → stdinBytes = some data →
      copyPayload args stdinJson stdinBytes = Except.ok [(ContentType.custom t, data)]) ∧
    (args.type = none → args.systemType = none → stdinBytes = some data →
      copyPayload args stdinJson stdinBytes = Except.ok [(ContentType.text, data)]) ∧
    (copySingleCt args = Except.ok ct → stdinBytes = none →
      copyPayload args stdinJson stdinBytes = Except.error CliptoolsError.internalError) := by
  refine ⟨fun ht hct => ?_, fun ht hct hsb => ?_, fun ht hst hsb => ?_,
    fun ht hst hsb => ?_, fun hres hsb => ?_⟩
  · refine ⟨"unknown type: " ++ t ++
      "; try using --system-type to specify a system native type", ?_⟩
    simp [copyPayload, hm, copySingleCt, ht, hct]
  · simp [copyPayload, hm, copySingleCt, ht, hct, hsb]
  · simp [copyPayload, hm, copySingleCt, ht, hst, hsb]
  · simp [copyPayload, hm, copySingleCt, ht, hst, hsb]
  · simp [copyPayload, hm, hres, hsb]

/-- Witness for C6: empty flags and standard input "abc" produce the
single-entry payload mapping Text to the bytes of "abc". -/
theorem copy_single_type_witness :
    copyPayload ⟨false, none, none⟩ none (some [97, 98, 99]) =
      Except.ok [(ContentType.text, [97, 98, 99])] :=
  (copy_single_type ⟨false, none, none⟩ none (some [97, 98, 99]) [97, 98, 99] ""
    ContentType.text rfl).2.2.2.1 rfl rfl rfl

/-- C7: in both copy modes the constructed payload is handed to the
collaborator `set_content_types` in exactly one call carrying the
complete payload; when the collaborator rejects that call, copy fails
with `InternalError`; when the payload construction itself fails, no
collaborator write call is made at all, so the core never originates a
partial multi-type application. -/
theorem copy_one_set_call (board : Board) (args : CopyArgs) (stdinJson : Option Json)
    (stdinBytes : Option (List Nat)) :
    (∀ p, copyPayload args stdinJson stdinBytes = Except.ok p →
      (copy board args stdinJson stdinBytes).2 = [p] ∧
      (board.set_content_types p = false →
        (copy board args stdinJson stdinBytes).1 =
          Except.error CliptoolsError.internalError) ∧
      (board.set_content_types p = true →
        (copy board args stdinJson stdinBytes).1 = Except.ok ())) ∧
    (∀ e, copyPayload args stdinJson stdinBytes = Except.error e →
      (copy board args stdinJson stdinBytes).2 = []) := by
  constructor
  · intro p hp
    refine ⟨?_, fun hrej => ?_, fun hacc => ?_⟩
    · cases hs : board.set_content_types p <;> simp [copy, hp, hs]
    · simp [copy, hp, hrej]
    · simp [copy, hp, hacc]
  · intro e he
    simp [copy, he]

/-- Witness for C7: a rejecting collaborator makes copy fail with
`InternalError` after exactly one write call carrying the whole
payload. -/
theorem copy_one_set_call_witness :
    (copy ⟨fun _ => none, none, none, fun _ => ContentType.text, fun _ => false⟩
        ⟨false, none, none⟩ none (some [97])).2 = [[(ContentType.text, [97])]] ∧
    (copy ⟨fun _ => none, none, none, fun _ => ContentType.text, fun _ => false⟩
        ⟨false, none, none⟩ none (some [97])).1 =
      Except.error CliptoolsError.internalError :=
  ⟨((copy_one_set_call _ ⟨false, none, none⟩ none (some [97])).1
      [(ContentType.text, [97])] rfl).1,
    ((copy_one_set_call _ ⟨false, none, none⟩ none (some [97])).1
      [(ContentType.text, [97])] rfl).2.1 rfl⟩

theorem insertPayload_nil (k : ContentType) (v : List Nat) :
    insertPayload [] k v = [(k, v)] := rfl

theorem insertPayload_cons (k2 : ContentType) (v2 : List Nat) (rest : Payload)
    (k : ContentType) (v : List Nat) :
    insertPayload ((k2, v2) :: rest) k v =
      if k2 = k then (k, v) :: rest else (k2, v2) :: insertPayload rest k v := rfl

theorem insertPayload_map_fst (m : Payload) (k : ContentType) (v : List Nat)
    (a : ContentType) :
    a ∈ (insertPayload m k v).map Prod.fst ↔ a = k ∨ a ∈ m.map Prod.fst := by
  induction m with
  | nil => simp [insertPayload_nil]
  | cons e rest ih =>
    obtain ⟨k2, v2⟩ := e
    rw [insertPayload_cons]
    by_cases h : k2 = k
    · subst h
      rw [if_pos rfl]
      simp only [List.map_cons, List.mem_cons]
      tauto
    · rw [if_neg h]
      simp only [List.map_cons, List.mem_cons, ih]
      tauto

theorem mem_insertPayload (m : Payload) (k : ContentType) (v : List Nat)
    (e : ContentType × List Nat) (he : e ∈ insertPayload m k v) :
    e = (k, v) ∨ e ∈ m := by
  induction m with
  | nil => simpa [insertPayload] using he
  | cons e2 rest ih =>
    obtain ⟨k2, v2⟩ := e2
    by_cases h : k2 = k
    · subst h
      rw [insertPayload, if_pos rfl] at he
      rcases List.mem_cons.mp he with he2 | he2
      · exact Or.inl he2
      · exact Or.inr (List.mem_cons_of_mem _ he2)
    · rw [insertPayload, if_neg h] at he
      rcases List.mem_cons.mp he with he2 | he2
      · exact Or.inr (he2 ▸ List.mem_cons_self _ _)
      · rcases ih he2 with h3 | h3
        · exact Or.inl h3
        · exact Or.inr (List.mem_cons_of_mem _ h3)

theorem insertPayload_nodup (m : Payload) (k : ContentType) (v : List Nat)
    (h : (m.map Prod.fst).Nodup) : ((insertPayload m k v).map Prod.fst).Nodup := by
  induction m with
  | nil => simp [insertPayload]
  | cons e rest ih =>
    obtain ⟨k2, v2⟩ := e
    simp only [List.map_cons, List.nodup_cons] at h
    by_cases hk : k2 = k
    · subst hk
      rw [insertPayload, if_pos rfl]
      simp only [List.map_cons, List.nodup_cons]
      exact h
    · rw [insertPayload, if_neg hk]
      simp only [List.map_cons, List.nodup_cons]
      refine ⟨?_, ih h.2⟩
      intro hmem
      rcases (insertPayload_map_fst rest k v k2).mp hmem with he | hm
      · exact hk he
      · exact h.1 hm

theorem insertPayload_length_notmem (m : Payload) (k : ContentType) (v : List Nat)
    (h : k ∉ m.map Prod.fst) : (insertPayload m k v).length = m.length + 1 := by
  induction m with
  | nil => simp [insertPayload]
  | cons e rest ih =>
    obtain ⟨k2, v2⟩ := e
    simp only [List.map_cons, List.mem_cons, not_or] at h
    rw [insertPayload, if_neg (fun he => h.1 he.symm)]
    simp [ih h.2]

/-- When every key of the object resolves and every value is a string,
the JSON payload construction succeeds, its keys are exactly the distinct
resolved content types, each key occurs once, and every entry carries the
bytes of a string value whose key resolved to it. -/
theorem buildJsonPayload_ok (entries : List (String × Json)) (acc : Payload)
    (hk : ∀ kv ∈ entries, (string_to_ct kv.1).isSome = true)
    (hv : ∀ kv ∈ entries, ∃ s, kv.2 = Json.str s) :
    ∃ p, buildJsonPayload entries acc = Except.ok p ∧
      (∀ ct, ct ∈ p.map Prod.fst ↔ ct ∈ acc.map Prod.fst ∨
        ∃ kv ∈ entries, string_to_ct kv.1 = some ct) ∧
      ((acc.map Prod.fst).Nodup → (p.map Prod.fst).Nodup) ∧
      (∀ e ∈ p, e ∈ acc ∨ ∃ kv ∈ entries, string_to_ct kv.1 = some e.1 ∧
        ∃ s, kv.2 = Json.str s ∧ e.2 = strBytes s) := by
  induction entries generalizing acc with
  | nil =>
    refine ⟨acc, rfl, ?_, fun h => h, fun e he => Or.inl he⟩
    simp
  | cons kv rest ih =>
    obtain ⟨typ, content⟩ := kv
    obtain ⟨ct, hct⟩ := Option.isSome_iff_exists.mp (hk _ (List.mem_cons_self _ _))
    obtain ⟨s, hs⟩ := hv _ (List.mem_cons_self _ _)
    subst hs
    obtain ⟨p, hbuild, hmem, hnodup, horigin⟩ :=
      ih (insertPayload acc ct (strBytes s))
        (fun kv2 h2 => hk kv2 (List.mem_cons_of_mem _ h2))
        (fun kv2 h2 => hv kv2 (List.mem_cons_of_mem _ h2))
    refine ⟨p, ?_, ?_, ?_, ?_⟩
    · rw [buildJsonPayload, hct]
      exact hbuild
    · intro ct2
      rw [hmem ct2, insertPayload_map_fst]
      constructor
      · rintro ((he | hacc) | ⟨kv2, hkv2, hres⟩)
        · exact Or.inr ⟨(typ, Json.str s), List.mem_cons_self _ _, he ▸ hct⟩
        · exact Or.inl hacc
        · exact Or.inr ⟨kv2, List.mem_cons_of_mem _ hkv2, hres⟩
      · rintro (hacc | ⟨kv2, hkv2, hres⟩)
        · exact Or.inl (Or.inr hacc)
        · rcases List.mem_cons.mp hkv2 with he | hr
          · subst he
            rw [hct] at hres
            exact Or.inl (Or.inl (Option.some.inj hres).symm)
          · exact Or.inr ⟨kv2, hr, hres⟩
    · intro hacc
      exact hnodup (insertPayload_nodup acc ct (strBytes s) hacc)
    · intro e he
      rcases horigin e he with h2 | ⟨kv2, hkv2, hres, s2, hs2, hb2⟩
      · rcases mem_insertPayload acc ct (strBytes s) e h2 with h3 | h3
        · exact Or.inr ⟨(typ, Json.str s), List.mem_cons_self _ _,
            by rw [h3]; exact hct, s, rfl, by rw [h3]⟩
        · exact Or.inl h3
      · exact Or.inr ⟨kv2, List.mem_cons_of_mem _ hkv2, hres, s2, hs2, hb2⟩

/-- When additionally the resolved content types are pairwise distinct
and disjoint from the accumulator keys, the construction yields one entry
per object key. -/
theorem buildJsonPayload_length (entries : List (String × Json)) (acc : Payload)
    (hk : ∀ kv ∈ entries, (string_to_ct kv.1).isSome = true)
    (hv : ∀ kv ∈ entries, ∃ s, kv.2 = Json.str s)
    (hinj : (entries.map (fun kv => string_to_ct kv.1)).Nodup)
    (hdisj : ∀ kv ∈ entries, ∀ ct, string_to_ct kv.1 = some ct → ct ∉ acc.map Prod.fst) :
    ∃ p, buildJsonPayload entries acc = Except.ok p ∧
      p.length = acc.length + entries.length := by
  induction entries generalizing acc with
  | nil => exact ⟨acc, rfl, by simp⟩
  | cons kv rest ih =>
    obtain ⟨typ, content⟩ := kv
    obtain ⟨ct, hct⟩ := Option.isSome_iff_exists.mp (hk _ (List.mem_cons_self _ _))
    obtain ⟨s, hs⟩ := hv _ (List.mem_cons_self _ _)
    subst hs
    simp only [List.map_cons, List.nodup_cons] at hinj
    obtain ⟨p, hbuild, hlen⟩ := ih (insertPayload acc ct (strBytes s))
      (fun kv2 h2 => hk kv2 (List.mem_cons_of_mem _ h2))
      (fun kv2 h2 => hv kv2 (List.mem_cons_of_mem _ h2))
      hinj.2
      (by
        intro kv2 h2 ct2 hres hmem
        rcases (insertPayload_map_fst acc ct (strBytes s) ct2).mp hmem with he | hacc
        · subst he
          refine hinj.1 ?_
          rw [hct.trans hres.symm]
          exact List.mem_map_of_mem (fun kv => string_to_ct kv.1) h2
        · exact hdisj kv2 (List.mem_cons_of_mem _ h2) ct2 hres hacc)
    refine ⟨p, ?_, ?_⟩
    · rw [buildJsonPayload, hct]
      exact hbuild
    · rw [hlen, insertPayload_length_notmem acc ct (strBytes s)
        (hdisj (typ, Json.str s) (List.mem_cons_self _ _) ct hct)]
      simp only [List.length_cons]
      omega

/-- With every value a string, a key that fails to resolve makes the JSON
payload construction fail with an ArgumentError. -/
theorem buildJsonPayload_bad_key (entries : List (String × Json)) (acc : Payload)
    (hv : ∀ kv ∈ entries, ∃ s, kv.2 = Json.str s)
    (hbad : ∃ kv ∈ entries, string_to_ct kv.1 = none) :
    ∃ m, buildJsonPayload entries acc = Except.error (CliptoolsError.argumentError m) := by
  induction entries generalizing acc with
  | nil => simp at hbad
  | cons kv rest ih =>
    obtain ⟨typ, content⟩ := kv
    cases hct : string_to_ct typ with
    | none => exact ⟨"unknown type: " ++ typ, by rw [buildJsonPayload, hct]⟩
    | some ct =>
      obtain ⟨s, hs⟩ := hv _ (List.mem_cons_self _ _)
      subst hs
      obtain ⟨kv2, hkv2, hres⟩ := hbad
      rcases List.mem_cons.mp hkv2 with he | hr
      · rw [he] at hres
        rw [hres] at hct
        exact Option.noConfusion hct
      · obtain ⟨m, hm⟩ := ih (insertPayload acc ct (strBytes s))
          (fun kv3 h3 => hv kv3 (List.mem_cons_of_mem _ h3)) ⟨kv2, hr, hres⟩
        refine ⟨m, ?_⟩
        rw [buildJsonPayload, hct]
        exact hm

/-- With every key resolving, a non-string value makes the JSON payload
construction fail with a JsonError. -/
theorem buildJsonPayload_bad_value (entries : List (String × Json)) (acc : Payload)
    (hk : ∀ kv ∈ entries, (string_to_ct kv.1).isSome = true)
    (hbad : ∃ kv ∈ entries, ∀ s, kv.2 ≠ Json.str s) :
    ∃ m, buildJsonPayload entries acc = Except.error (CliptoolsError.jsonError m) := by
  induction entries generalizing acc with
  | nil => simp at hbad
  | cons kv rest ih =>
    obtain ⟨typ, content⟩ := kv
    obtain ⟨ct, hct⟩ := Option.isSome_iff_exists.mp (hk _ (List.mem_cons_self _ _))
    cases hsv : content with
    | str s =>
      obtain ⟨kv2, hkv2, hres⟩ := hbad
      rcases List.mem_cons.mp hkv2 with he | hr
      · exact absurd (by rw [he, hsv]) (hres s)
      · obtain ⟨m, hm⟩ := ih (insertPayload acc ct (strBytes s))
          (fun kv3 h3 => hk kv3 (List.mem_cons_of_mem _ h3)) ⟨kv2, hr, hres⟩
        refine ⟨m, ?_⟩
        rw [buildJsonPayload, hct]
        exact hm
    | null => exact ⟨"expected a string under key " ++ typ, by rw [buildJsonPayload, hct]⟩
    | bool b => exact ⟨"expected a string under key " ++ typ, by rw [buildJsonPayload, hct]⟩
    | num n => exact ⟨"expected a string under key " ++ typ, by rw [buildJsonPayload, hct]⟩
    | arr es => exact ⟨"expected a string under key " ++ typ, by rw [buildJsonPayload, hct]⟩
    | obj es => exact ⟨"expected a string under key " ++ typ, by rw [buildJsonPayload, hct]⟩

/-- In JSON mode with an object top level, the payload construction is
the fold over the object entries starting from the empty map. -/
theorem copyPayload_json_obj (args : CopyArgs) (hj : args.json = true)
    (entries : List (String × Json)) (sb : Option (List Nat)) :
    copyPayload args (some (Json.obj entries)) sb = buildJsonPayload entries [] := by
  simp [copyPayload, hj]

/-- Counterexample to C5 as stated: the two distinct object keys "TEXT"
and "text" both resolve to the `Text` content type, so the produced
payload has one entry, not one entry per object key. -/
theorem copy_json_entry_count_counterexample :
    copyPayload ⟨true, none, none⟩
        (some (Json.obj [("TEXT", Json.str "b"), ("text", Json.str "a")])) none =
      Except.ok [(ContentType.text, strBytes "a")] ∧
    [(ContentType.text, strBytes "a")].length ≠
      [("TEXT", Json.str "b"), ("text", Json.str "a")].length :=
  ⟨rfl, by decide⟩

/-- C5 (amended): in copy JSON mode, a non-object top level fails with
`JsonError`; a key that does not resolve through the codec fails with
`ArgumentError`; a non-string value fails with `JsonError`; otherwise the
produced payload contains one entry per distinct resolved `ContentType` —
several keys resolving to the same `ContentType` collapse into a single
entry — each entry mapping a resolved `ContentType` to the bytes of the
characters of a string value whose key resolved to it; when the keys
resolve to pairwise distinct `ContentType`s the payload has exactly one
entry per object key. -/
theorem copy_json_mode (args : CopyArgs) (j : Json) (entries : List (String × Json))
    (sb : Option (List Nat)) (hj : args.json = true) :
    ((∀ es, j ≠ Json.obj es) →
      ∃ m, copyPayload args (some j) sb = Except.error (CliptoolsError.jsonError m)) ∧
    (j = Json.obj entries →
      ((∀ kv ∈ entries, ∃ s, kv.2 = Json.str s) →
        (∃ kv ∈ entries, string_to_ct kv.1 = none) →
        ∃ m, copyPayload args (some j) sb =
          Except.error (CliptoolsError.argumentError m)) ∧
      ((∀ kv ∈ entries, (string_to_ct kv.1).isSome = true) →
        (∃ kv ∈ entries, ∀ s, kv.2 ≠ Json.str s) →
        ∃ m, copyPayload args (some j) sb = Except.error (CliptoolsError.jsonError m)) ∧
      ((∀ kv ∈ entries, (string_to_ct kv.1).isSome = true) →
        (∀ kv ∈ entries, ∃ s, kv.2 = Json.str s) →
        ∃ p, copyPayload args (some j) sb = Except.ok p ∧
          (∀ ct, ct ∈ p.map Prod.fst ↔ ∃ kv ∈ entries, string_to_ct kv.1 = some ct) ∧
          (p.map Prod.fst).Nodup ∧
          (∀ e ∈ p, ∃ kv ∈ entries, string_to_ct kv.1 = some e.1 ∧
            ∃ s, kv.2 = Json.str s ∧ e.2 = strBytes s) ∧
          ((entries.map (fun kv => string_to_ct kv.1)).Nodup →
            p.length = entries.length))) := by
  constructor
  · intro hno
    cases j with
    | obj es => exact absurd rfl (hno es)
    | null => exact ⟨"expected a JSON object at top level", by simp [copyPayload, hj]⟩
    | bool b => exact ⟨"expected a JSON object at top level", by simp [copyPayload, hj]⟩
    | num n => exact ⟨"expected a JSON object at top level", by simp [copyPayload, hj]⟩
    | str s => exact ⟨"expected a JSON object at top level", by simp [copyPayload, hj]⟩
    | arr es => exact ⟨"expected a JSON object at top level", by simp [copyPayload, hj]⟩
  · rintro rfl
    rw [copyPayload_json_obj args hj entries sb]
    refine ⟨fun hv hbad => buildJsonPayload_bad_key entries [] hv hbad,
      fun hk hbad => buildJsonPayload_bad_value entries [] hk hbad, fun hk hv => ?_⟩
    obtain ⟨p, hb, hmem, hnodup, horigin⟩ := buildJsonPayload_ok entries [] hk hv
    refine ⟨p, hb, ?_, hnodup (by simp), ?_, ?_⟩
    · intro ct
      rw [hmem ct]
      simp
    · intro e he
      rcases horigin e he with h2 | h2
      · simp at h2
      · exact h2
    · intro hinj
      obtain ⟨p2, hb2, hlen⟩ := buildJsonPayload_length entries [] hk hv hinj (by simp)
      rw [hb] at hb2
      rw [Except.ok.inj hb2]
      simpa using hlen

/-- Witness for C5 (amended) at concrete inputs: a top-level array fails
with `JsonError`, and the two-key object from the specification example
produces a payload with the stated properties. -/
theorem copy_json_mode_witness :
    (∃ m, copyPayload ⟨true, none, none⟩ (some (Json.arr [])) none =
      Except.error (CliptoolsError.jsonError m)) ∧
    (∃ p, copyPayload ⟨true, none, none⟩
        (some (Json.obj [("text", Json.str "hello"), ("url", Json.str "hw")])) none =
      Except.ok p ∧
      (∀ ct, ct ∈ p.map Prod.fst ↔
        ∃ kv ∈ [("text", Json.str "hello"), ("url", Json.str "hw")],
          string_to_ct kv.1 = some ct) ∧
      (p.map Prod.fst).Nodup ∧
      (∀ e ∈ p, ∃ kv ∈ [("text", Json.str "hello"), ("url", Json.str "hw")],
        string_to_ct kv.1 = some e.1 ∧ ∃ s, kv.2 = Json.str s ∧ e.2 = strBytes s) ∧
      (([("text", Json.str "hello"), ("url", Json.str "hw")].map
          (fun kv => string_to_ct kv.1)).Nodup →
        p.length = [("text", Json.str "hello"), ("url", Json.str "hw")].length)) :=
  ⟨(copy_json_mode ⟨true, none, none⟩ (Json.arr []) [] none rfl).1
      (fun es h => Json.noConfusion h),
    ((copy_json_mode ⟨true, none, none⟩
        (Json.obj [("text", Json.str "hello"), ("url", Json.str "hw")])
        [("text", Json.str "hello"), ("url", Json.str "hw")] none rfl).2 rfl).2.2
      (by decide) (by simp)⟩

end Cliptools
